import Mathlib

/-!
Verification of the Progress Aggregation & Synchronization Engine of the
sorutakip repository (a Next.js study tracker backed by Firestore).

The shallow embedding below translates the data model and the operations of
src/app/page.tsx and the FirestoreService (src/unnamed/part_000):

* SubjectData, DailyProgress, UserProgress, UserSettings mirror the
  TypeScript interfaces of the same names (the serverTimestamp metadata
  field is omitted: it carries no program logic).
* JavaScript objects used as string-keyed records
  (Record of string to counts, Firestore documents) are embedded as
  association lists List (String × α); dlookup is property access,
  dset is property assignment (reassignment keeps the key position,
  as JS insertion order does).
* JavaScript numbers holding counters are embedded as Int (all the code
  path values are integers); the one place a division can produce
  Infinity/NaN (getProgressPercentage) uses the JSNum type.
-/

/-- Mirrors the TypeScript interface SubjectData of the firestore service. -/
structure SubjectData where
  name : String
  icon : String
  correct : Int
  wrong : Int
  empty : Int
  target : Int
  color : String
deriving DecidableEq, Repr

/-- Per-subject counters as stored inside a daily record
(the value type of DailyProgress.subjects). -/
structure SubjectCounts where
  correct : Int
  wrong : Int
  empty : Int
  total : Int
deriving DecidableEq, Repr

/-- Mirrors the TypeScript interface DailyProgress (date, per-subject
counters keyed by subject name, stored grand total, stored total target,
owner).  The serverTimestamp field is metadata and is omitted. -/
structure DailyProgress where
  date : String
  subjects : List (String × SubjectCounts)
  total : Int
  totalTarget : Int
  userId : String
deriving DecidableEq, Repr

/-- Mirrors the TypeScript interface UserProgress: the per-user document
holding the subject catalog (targets and display data) and its stored
totalTarget field. -/
structure UserProgress where
  subjects : List SubjectData
  totalTarget : Int
deriving DecidableEq, Repr

/-- Mirrors the TypeScript interface UserSettings (same shape as
UserProgress: subjects plus a stored totalTarget). -/
structure UserSettings where
  subjects : List SubjectData
  totalTarget : Int
deriving DecidableEq, Repr

/-- Property access on a JavaScript object embedded as an association
list: obj[k], giving none for a missing key. -/
def dlookup {α : Type} (k : String) : List (String × α) → Option α
  | [] => none
  | p :: r => if k = p.1 then some p.2 else dlookup k r

/-- Property assignment obj[k] = v on a JavaScript object embedded as an
association list: an existing key keeps its position (JS insertion-order
semantics), a new key is appended. -/
def dset {α : Type} (m : List (String × α)) (k : String) (v : α) : List (String × α) :=
  if (dlookup k m).isSome then
    m.map (fun p => if p.1 = k then (k, v) else p)
  else
    m ++ [(k, v)]

/-- Componentwise addition of per-subject counters (the += statements of
the aggregation loops, covering correct, wrong, empty and total). -/
def addCounts (a b : SubjectCounts) : SubjectCounts :=
  { correct := a.correct + b.correct
    wrong := a.wrong + b.wrong
    empty := a.empty + b.empty
    total := a.total + b.total }

/-- All-zero counters. -/
def zeroCounts : SubjectCounts := { correct := 0, wrong := 0, empty := 0, total := 0 }

/-- The counters the live snapshot contributes for one subject: its three
counters and their sum, exactly as the seeding loops of
calculateAllTimeStats and calculateWeeklyStats build them. -/
def snapCounts (s : SubjectData) : SubjectCounts :=
  { correct := s.correct
    wrong := s.wrong
    empty := s.empty
    total := s.correct + s.wrong + s.empty }

/-- Seeding loop shared by calculateAllTimeStats and calculateWeeklyStats:
subjectProgress.forEach writing stats[subject.name] = snapCounts subject. -/
def seedStats (sp : List SubjectData) : List (String × SubjectCounts) :=
  sp.foldl (fun m s => dset m s.name (snapCounts s)) []

/-- One step of the history loop: if stats[subjectName] exists, add the
record data into it componentwise; a missing key is left untouched
(the if-guard of the source). -/
def addIfPresent (m : List (String × SubjectCounts)) (k : String) (d : SubjectCounts) :
    List (String × SubjectCounts) :=
  m.map (fun p => if p.1 = k then (p.1, addCounts p.2 d) else p)

/-- The inner Object.entries(day.subjects).forEach loop of the stats
functions. -/
def foldDay (m : List (String × SubjectCounts)) (day : DailyProgress) :
    List (String × SubjectCounts) :=
  day.subjects.foldl (fun acc p => addIfPresent acc p.1 p.2) m

/-- Fold of the seeded stats over a list of daily records: the common body
of calculateAllTimeStats and calculateWeeklyStats. -/
def statsFold (sp : List SubjectData) (hist : List DailyProgress) :
    List (String × SubjectCounts) :=
  hist.foldl foldDay (seedStats sp)

/-- Mirrors calculateAllTimeStats of src/app/page.tsx: seed from the live
snapshot, then add every history record (subjects missing from the seed
are skipped). -/
def calculateAllTimeStats (sp : List SubjectData) (hist : List DailyProgress) :
    List (String × SubjectCounts) :=
  statsFold sp hist

/-- Milliseconds per day. -/
def msPerDay : Int := 86400000

/-- The filter predicate of calculateWeeklyStats:
new Date(day.date) >= weekAgo, where weekAgo is the current instant minus
seven days.  now and recordTime are epoch milliseconds on one timeline
(fixed-offset clock, no DST jump inside the window); recordTime is the
midnight instant that new Date applied to the record's YYYY-MM-DD date
string denotes. -/
def weeklyContributes (now recordTime : Int) : Bool :=
  decide (now - 7 * msPerDay ≤ recordTime)

/-- Mirrors calculateWeeklyStats of src/app/page.tsx: same seed and fold
as calculateAllTimeStats, over the history filtered to the trailing seven
days.  parseDate embeds the JavaScript Date parsing of the record's date
string into an epoch-milliseconds value. -/
def calculateWeeklyStats (parseDate : String → Int) (now : Int)
    (sp : List SubjectData) (hist : List DailyProgress) :
    List (String × SubjectCounts) :=
  statsFold sp (hist.filter (fun day => weeklyContributes now (parseDate day.date)))

/-- Sum of the counts attached to key k inside one record's subject list
(zero when the key is absent). -/
def pairsSum (k : String) : List (String × SubjectCounts) → SubjectCounts
  | [] => zeroCounts
  | p :: r => if p.1 = k then addCounts p.2 (pairsSum k r) else pairsSum k r

/-- Total contribution of a history list to the stats entry for key k:
each record adds the counts it stores under k, a record lacking k adds
zero. -/
def histAdd : List DailyProgress → String → SubjectCounts
  | [], _ => zeroCounts
  | day :: r, k => addCounts ((dlookup k day.subjects).getD zeroCounts) (histAdd r k)

/-- Concrete snapshot used to witness the all-time rollup theorem. -/
def c1Snap : List SubjectData :=
  [ { name := "Matematik", icon := "", correct := 1, wrong := 2, empty := 3,
      target := 15, color := "" },
    { name := "Turkce", icon := "", correct := 0, wrong := 0, empty := 0,
      target := 10, color := "" } ]

/-- Concrete history used to witness the all-time rollup theorem: one
record containing one catalog subject and one subject no longer in the
catalog. -/
def c1Hist : List DailyProgress :=
  [ { date := "2024-01-01",
      subjects := [("Matematik", { correct := 1, wrong := 1, empty := 0, total := 2 }),
                   ("Eski", { correct := 9, wrong := 9, empty := 9, total := 27 })],
      total := 29, totalTarget := 60, userId := "u" } ]

/-- Spread-with-zeroed-counters: the { ...subject, correct: 0, wrong: 0,
empty: 0 } literal of loadUserDataForDate. -/
def zeroOut (s : SubjectData) : SubjectData :=
  { s with correct := 0, wrong := 0, empty := 0 }

/-- The in-memory state the page component keeps for the selected date:
subjectProgress, totalQuestions and totalTarget. -/
structure Snapshot where
  subjectProgress : List SubjectData
  totalQuestions : Int
  totalTarget : Int
deriving DecidableEq, Repr

/-- The reduce((sum, subject) => sum + subject.correct + subject.wrong +
subject.empty, 0) expression computing the day's total question count. -/
def sumCWE (l : List SubjectData) : Int :=
  l.foldl (fun sum s => sum + s.correct + s.wrong + s.empty) 0

/-- The reduce((sum, subject) => sum + subject.target, 0) expression of
updateTarget recomputing the catalog's total target. -/
def sumTargets (l : List SubjectData) : Int :=
  l.foldl (fun sum s => sum + s.target) 0

/-- Per-subject merge of loadUserDataForDate when a record exists for the
selected date: counters are taken from the record entry stored under the
identical subject name, or reset to zero when the record has no such
entry. -/
def mergeSubject (dp : DailyProgress) (s : SubjectData) : SubjectData :=
  match dlookup s.name dp.subjects with
  | some d => { s with correct := d.correct, wrong := d.wrong, empty := d.empty }
  | none => zeroOut s

/-- Mirrors the state produced by loadUserDataForDate of src/app/page.tsx
once the user progress document is available: merge the catalog with the
optional daily record, set totalTarget from the user progress document's
stored totalTarget field, and recompute totalQuestions from the merged
subjects. -/
def loadUserDataForDate (up : UserProgress) (dp : Option DailyProgress) : Snapshot :=
  let finalSubjects :=
    match dp with
    | some d => up.subjects.map (mergeSubject d)
    | none => up.subjects.map zeroOut
  { subjectProgress := finalSubjects
    totalQuestions := sumCWE finalSubjects
    totalTarget := up.totalTarget }

/-- The three mutable counter fields of a subject ("correct" | "wrong" |
"empty" in updateQuestions). -/
inductive QField where
  | correct : QField
  | wrong : QField
  | empty : QField
deriving DecidableEq, Repr

/-- Read the counter selected by a QField. -/
def getQField (s : SubjectData) : QField → Int
  | .correct => s.correct
  | .wrong => s.wrong
  | .empty => s.empty

/-- Write the counter selected by a QField. -/
def setQField (s : SubjectData) : QField → Int → SubjectData
  | .correct, v => { s with correct := v }
  | .wrong, v => { s with wrong := v }
  | .empty, v => { s with empty := v }

/-- In-place array element update newProgress[subjectIndex] = f(...);
indices past the end leave the list unchanged. -/
def modifyAt {α : Type} : List α → Nat → (α → α) → List α
  | [], _, _ => []
  | a :: r, 0, f => f a :: r
  | a :: r, n + 1, f => a :: modifyAt r n f

/-- The progressForDate document built by updateQuestions before the
daily write: its date, a per-subject record of counters plus their total,
and the grand total. -/
structure PendingDailyWrite where
  date : String
  subjects : List (String × SubjectCounts)
  total : Int
deriving DecidableEq, Repr

/-- The newProgress.forEach loop of updateQuestions filling
progressForDate.subjects. -/
def buildProgressForDate (date : String) (np : List SubjectData) (newTotal : Int) :
    PendingDailyWrite :=
  { date := date
    subjects := np.foldl (fun m s => dset m s.name (snapCounts s)) []
    total := newTotal }

/-- Mirrors updateQuestions of src/app/page.tsx: clamp the selected
counter at zero after applying the change, recompute the total, and issue
one immediate saveDailyProgressForDate write carrying the new state. -/
def updateQuestions (st : Snapshot) (date : String) (subjectIndex : Nat)
    (field : QField) (change : Int) : Snapshot × PendingDailyWrite :=
  let newProgress :=
    modifyAt st.subjectProgress subjectIndex
      (fun s => setQField s field (max 0 (getQField s field + change)))
  let newTotal := sumCWE newProgress
  ({ st with subjectProgress := newProgress, totalQuestions := newTotal },
   buildProgressForDate date newProgress newTotal)

/-- Mirrors updateTarget of src/app/page.tsx: clamp the new target at a
minimum of 1 and recompute the total target as the sum of all subject
targets. -/
def updateTarget (st : Snapshot) (subjectIndex : Nat) (newTarget : Int) : Snapshot :=
  let newProgress :=
    modifyAt st.subjectProgress subjectIndex (fun s => { s with target := max 1 newTarget })
  { st with subjectProgress := newProgress, totalTarget := sumTargets newProgress }

/-- A JavaScript number that can also be Infinity, -Infinity or NaN
(needed only where the source divides by a possibly-zero target). -/
inductive JSNum where
  | num : ℚ → JSNum
  | inf : JSNum
  | ninf : JSNum
  | nan : JSNum
deriving DecidableEq, Repr

/-- JavaScript division a / b, including the b = 0 cases. -/
def jsDiv (a b : ℚ) : JSNum :=
  if b = 0 then (if a = 0 then .nan else if 0 < a then .inf else .ninf)
  else .num (a / b)

/-- JavaScript multiplication of a possibly non-finite number by a finite
constant. -/
def jsMul (x : JSNum) (c : ℚ) : JSNum :=
  match x with
  | .num q => .num (q * c)
  | .inf => if 0 < c then .inf else if c < 0 then .ninf else .nan
  | .ninf => if 0 < c then .ninf else if c < 0 then .inf else .nan
  | .nan => .nan

/-- JavaScript Math.min(x, c) for a finite c: NaN propagates, Infinity
loses against c. -/
def jsMin (x : JSNum) (c : ℚ) : JSNum :=
  match x with
  | .num q => .num (min q c)
  | .inf => .num c
  | .ninf => .ninf
  | .nan => .nan

/-- Mirrors getProgressPercentage of src/app/page.tsx:
Math.min((total / subject.target) * 100, 100) with no guard on a zero
target. -/
def getProgressPercentage (s : SubjectData) : JSNum :=
  jsMin (jsMul (jsDiv ((s.correct : ℚ) + (s.wrong : ℚ) + (s.empty : ℚ)) (s.target : ℚ)) 100) 100

/-- One counter step of updateQuestions: Math.max(0, old + change). -/
def clampStep (v change : Int) : Int := max 0 (v + change)

/-- Iterated counter steps: the value of one subject's field after a
sequence of updateQuestions calls on that field. -/
def applyDeltas (init : Int) : List Int → Int
  | [] => init
  | d :: r => applyDeltas (clampStep init d) r

/-- Iterate updateQuestions on one subject index and field over a list of
deltas, keeping only the evolving snapshot. -/
def runDeltas (st : Snapshot) (date : String) (subjectIndex : Nat) (field : QField) :
    List Int → Snapshot
  | [] => st
  | d :: r => runDeltas (updateQuestions st date subjectIndex field d).1 date subjectIndex field r

/-- One user mutation: its arrival time (epoch milliseconds) and the
updateQuestions arguments. -/
structure MutEvent where
  time : Int
  subjectIndex : Nat
  field : QField
  change : Int
deriving DecidableEq, Repr

/-- Run a sequence of mutations through updateQuestions, collecting the
immediate saveDailyProgressForDate payload each call issues. -/
def runMutations (st : Snapshot) (date : String) :
    List MutEvent → Snapshot × List PendingDailyWrite
  | [] => (st, [])
  | e :: r =>
    let step := updateQuestions st date e.subjectIndex e.field e.change
    let rest := runMutations step.1 date r
    (rest.1, step.2 :: rest.2)

/-- The debounced saveUserProgress effect of src/app/page.tsx: each state
change clears the previous 1000 ms timer and arms a new one, so the timer
armed by mutation i fires (with the state as of mutation i) exactly when
the next mutation arrives at least w ms later, and the timer armed by the
last mutation always fires.  The returned list holds the snapshots the
fired saves carry, in firing order. -/
def firedSaves (w : Int) (st : Snapshot) (date : String) :
    List MutEvent → List Snapshot
  | [] => []
  | [e] => [(updateQuestions st date e.subjectIndex e.field e.change).1]
  | e1 :: e2 :: r =>
    let st2 := (updateQuestions st date e1.subjectIndex e1.field e1.change).1
    (if w ≤ e2.time - e1.time then [st2] else []) ++ firedSaves w st2 date (e2 :: r)

/-- Firestore setDoc(ref, record, merge true) on one document embedded as
a field list: every field of record is written over the old document,
fields the record does not mention are preserved. -/
def mergeDoc {α : Type} (old record : List (String × α)) : List (String × α) :=
  record.foldl (fun d p => dset d p.1 p.2) old

/-- The deterministic daily-record document id of
saveDailyProgressForDate: userId followed by an underscore and the date. -/
def docKey (userId date : String) : String := userId ++ "_" ++ date

/-- A document store collection: documents keyed by their document id. -/
abbrev Store (α : Type) : Type := List (String × List (String × α))

/-- Firestore setDoc with merge true at the collection level: merge into
the document at the key if it exists, otherwise create it with exactly
the record's fields. -/
def setDocMerge {α : Type} (store : Store α) (key : String)
    (record : List (String × α)) : Store α :=
  match dlookup key store with
  | some old => store.map (fun p => if p.1 = key then (key, mergeDoc old record) else p)
  | none => store ++ [(key, record)]

/-- Mirrors saveDailyProgressForDate of the firestore service: a
merge-write of the record under the deterministic key userId_date.
(The record written by the source spreads dailyProgress and adds userId
and a server timestamp; the field values are abstract here.) -/
def saveDailyProgressForDate {α : Type} (store : Store α) (userId date : String)
    (record : List (String × α)) : Store α :=
  setDocMerge store (docKey userId date) record

/-- The six default subjects of initializeUserSettings and
initializeUserProgress, with their fixed targets. -/
def defaultSubjects : List SubjectData :=
  [ { name := "Türkçe", icon := "🇹🇷", correct := 0, wrong := 0, empty := 0,
      target := 10, color := "bg-red-500" },
    { name := "Matematik", icon := "🔢", correct := 0, wrong := 0, empty := 0,
      target := 15, color := "bg-blue-500" },
    { name := "Sosyal Bilgiler", icon := "🌍", correct := 0, wrong := 0, empty := 0,
      target := 8, color := "bg-green-500" },
    { name := "Fen Bilimleri", icon := "🔬", correct := 0, wrong := 0, empty := 0,
      target := 12, color := "bg-purple-500" },
    { name := "İngilizce", icon := "🇬🇧", correct := 0, wrong := 0, empty := 0,
      target := 10, color := "bg-yellow-500" },
    { name := "Din Kültürü", icon := "📿", correct := 0, wrong := 0, empty := 0,
      target := 5, color := "bg-orange-500" } ]

/-- Mirrors initializeUserSettings of the firestore service, acting on the
user's settings document (none when no document exists): if settings
already exist the call returns without writing; otherwise it saves the
default subjects through saveUserSettings, which zeroes the counters and
stores the sum of the default targets. -/
def initializeUserSettings (existing : Option UserSettings) : Option UserSettings :=
  match existing with
  | some s => some s
  | none =>
    some { subjects := defaultSubjects.map (fun s => { s with correct := 0, wrong := 0, empty := 0 })
           totalTarget := sumTargets defaultSubjects }

/-- Mirrors initializeUserProgress of the firestore service, acting on the
user's progress document: if progress already exists the call returns
without writing; otherwise it saves the default subjects and the sum of
the default targets through saveUserProgress. -/
def initializeUserProgress (existing : Option UserProgress) : Option UserProgress :=
  match existing with
  | some p => some p
  | none =>
    some { subjects := defaultSubjects, totalTarget := sumTargets defaultSubjects }

/-- Mirrors the try/catch of getDailyProgressForDate: the outcome of the
single underlying getDoc call (ok with the optional record, or a thrown
error) is mapped to the caller-visible result; the catch branch returns
null. -/
def getDailyProgressForDate (outcome : Except String (Option DailyProgress)) :
    Option DailyProgress :=
  match outcome with
  | .ok v => v
  | .error _ => none

/-- Mirrors the try/catch of getUserDailyHistory: the catch branch
returns an empty list. -/
def getUserDailyHistory (outcome : Except String (List DailyProgress)) :
    List DailyProgress :=
  match outcome with
  | .ok l => l
  | .error _ => []

/-- Mirrors the try/catch of saveDailyProgressForDate around its single
setDoc call: the catch branch logs and rethrows the error. -/
def saveDailyProgressOutcome (outcome : Except String Unit) : Except String Unit :=
  match outcome with
  | .ok u => .ok u
  | .error e => .error e

/-- Concrete subject used by the counter theorems. -/
def c3Subj : SubjectData :=
  { name := "Matematik", icon := "", correct := 0, wrong := 0, empty := 0,
    target := 15, color := "" }

/-- Concrete snapshot used by the counter theorems: one subject with all
counters zero. -/
def c3St : Snapshot :=
  { subjectProgress := [c3Subj]
    totalQuestions := 0
    totalTarget := 15 }

/-- Concrete snapshot used by the mutation-write theorems. -/
def c2St : Snapshot :=
  { subjectProgress :=
      [ { name := "Matematik", icon := "", correct := 0, wrong := 0, empty := 0,
          target := 15, color := "" } ]
    totalQuestions := 0
    totalTarget := 15 }

/-- Two mutations 200 ms apart. -/
def c2Evs : List MutEvent :=
  [ { time := 0, subjectIndex := 0, field := QField.correct, change := 1 },
    { time := 200, subjectIndex := 0, field := QField.correct, change := 1 } ]

/-- Concrete catalog whose stored totalTarget (99) disagrees with the sum
of its subject targets (25). -/
def c4Up : UserProgress :=
  { subjects :=
      [ { name := "Matematik", icon := "", correct := 7, wrong := 7, empty := 7,
          target := 15, color := "" },
        { name := "Turkce", icon := "", correct := 1, wrong := 1, empty := 1,
          target := 10, color := "" } ]
    totalTarget := 99 }

/-- Concrete daily record for the load witness: it has an entry for
Matematik, none for Turkce, and a stored totalTarget of 11 that load must
ignore. -/
def c4Dp : DailyProgress :=
  { date := "2024-01-02"
    subjects := [("Matematik", { correct := 4, wrong := 1, empty := 0, total := 5 })]
    total := 5
    totalTarget := 11
    userId := "u" }

/-- Concrete store used to witness the upsert theorem: one document of
another user. -/
def c5Store : Store Int := [("other_2024-01-01", [("total", 3)])]

/-- First record written for the key u_2024-01-02. -/
def c5Rec : List (String × Int) := [("total", 5), ("totalTarget", 60)]

/-- Second record written for the same key in the same window. -/
def c5Rec2 : List (String × Int) := [("total", 7)]

/-- Snapshot subjects for the weekly boundary counterexample. -/
def c7Sp : List SubjectData :=
  [ { name := "Matematik", icon := "", correct := 0, wrong := 0, empty := 0,
      target := 15, color := "" } ]

/-- A record dated exactly seven calendar days before today (parsed
midnight instant 0 when today's midnight is 604800000). -/
def c7Day : DailyProgress :=
  { date := "d0"
    subjects := [("Matematik", { correct := 5, wrong := 0, empty := 0, total := 5 })]
    total := 5
    totalTarget := 15
    userId := "u" }

/-- Subject used to witness the percentage theorem. -/
def c8Subj : SubjectData :=
  { name := "Matematik", icon := "", correct := 5, wrong := 2, empty := 0,
    target := 15, color := "" }

theorem dlookup_append {α : Type} (k : String) (a b : List (String × α)) :
    dlookup k (a ++ b) =
      match dlookup k a with
      | some v => some v
      | none => dlookup k b := by
  induction a with
  | nil => simp [dlookup]
  | cons p r ih =>
    by_cases h : k = p.1 <;> simp [dlookup, h, ih]

theorem dlookup_map_replace {α : Type} (k k2 : String) (v : α) (m : List (String × α)) :
    dlookup k (m.map (fun p => if p.1 = k2 then (k2, v) else p)) =
      if k = k2 then (dlookup k m).map (fun _ => v) else dlookup k m := by
  induction m with
  | nil => simp [dlookup]
  | cons p r ih =>
    by_cases hp : p.1 = k2
    · by_cases hk : k = k2
      · subst hk; simp [dlookup, hp, ih]
      · have : ¬ k = p.1 := by rw [hp]; exact hk
        simp [dlookup, hp, hk, this, ih]
    · by_cases hk : k = p.1
      · have hk2 : ¬ k = k2 := fun h => hp (hk ▸ h)
        simp [dlookup, hp, hk, hk2]
      · simp [dlookup, hp, hk, ih]

theorem dlookup_dset {α : Type} (k k2 : String) (v : α) (m : List (String × α)) :
    dlookup k (dset m k2 v) = if k = k2 then some v else dlookup k m := by
  unfold dset
  by_cases hs : (dlookup k2 m).isSome
  · rw [if_pos hs, dlookup_map_replace]
    by_cases hk : k = k2
    · subst hk
      rcases ho : dlookup k m with _ | w
    -- absent contradicts hs
      · rw [ho] at hs; simp at hs
      · simp [ho]
    · simp [hk]
  · rw [if_neg hs, dlookup_append]
    by_cases hk : k = k2
    · subst hk
      rcases ho : dlookup k m with _ | w
      · simp [dlookup]
      · rw [ho] at hs; simp at hs
    · rcases ho : dlookup k m with _ | w <;> simp [dlookup, hk]

theorem dlookup_eq_none_of_forall {α : Type} (k : String) (m : List (String × α))
    (h : ∀ p ∈ m, p.1 ≠ k) : dlookup k m = none := by
  induction m with
  | nil => rfl
  | cons p r ih =>
    have h1 : p.1 ≠ k := h p (List.mem_cons_self p r)
    have : ¬ k = p.1 := fun hk => h1 hk.symm
    simp only [dlookup, if_neg this]
    exact ih (fun q hq => h q (List.mem_cons_of_mem p hq))

theorem dlookup_eq_none_iff_not_mem {α : Type} (k : String) (m : List (String × α)) :
    dlookup k m = none ↔ k ∉ m.map Prod.fst := by
  induction m with
  | nil => simp [dlookup]
  | cons p r ih =>
    by_cases hk : k = p.1
    · simp [dlookup, hk]
    · simp [dlookup, hk, ih, not_or]

theorem addCounts_zero_right (a : SubjectCounts) : addCounts a zeroCounts = a := by
  simp [addCounts, zeroCounts]

theorem addCounts_zero_left (a : SubjectCounts) : addCounts zeroCounts a = a := by
  simp [addCounts, zeroCounts]

theorem addCounts_assoc (a b c : SubjectCounts) :
    addCounts (addCounts a b) c = addCounts a (addCounts b c) := by
  simp [addCounts, Int.add_assoc]

theorem dlookup_addIfPresent (k k2 : String) (d : SubjectCounts)
    (m : List (String × SubjectCounts)) :
    dlookup k (addIfPresent m k2 d) =
      if k = k2 then (dlookup k m).map (fun v => addCounts v d) else dlookup k m := by
  induction m with
  | nil => by_cases hk : k = k2 <;> simp [addIfPresent, dlookup, hk]
  | cons p r ih =>
    by_cases hp : p.1 = k2
    · by_cases hk : k = k2
      · have hkp : k = p.1 := by rw [hp, hk]
        simp [addIfPresent, dlookup, hp, hk, hkp, ih]
      · have hkp : ¬ k = p.1 := fun h => hk (by rw [h, hp])
        simp only [addIfPresent, List.map_cons, if_pos hp, dlookup, if_neg hkp, if_neg hk]
        simpa [addIfPresent, hk] using ih
    · by_cases hk : k = p.1
      · simp only [addIfPresent, List.map_cons, if_neg hp, dlookup, if_pos hk]
        have hk2 : ¬ k = k2 := fun h => hp (hk ▸ h)
        simp [if_neg hk2]
      · simp only [addIfPresent, List.map_cons, if_neg hp, dlookup, if_neg hk]
        simpa [addIfPresent] using ih

theorem dlookup_foldDay_inner (k : String) (ps : List (String × SubjectCounts))
    (m : List (String × SubjectCounts)) :
    dlookup k (ps.foldl (fun acc p => addIfPresent acc p.1 p.2) m) =
      (dlookup k m).map (fun v => addCounts v (pairsSum k ps)) := by
  induction ps generalizing m with
  | nil =>
    rcases h : dlookup k m with _ | v <;> simp [pairsSum, h, addCounts_zero_right]
  | cons p r ih =>
    simp only [List.foldl_cons]
    rw [ih, dlookup_addIfPresent]
    by_cases hk : k = p.1
    · have hp : p.1 = k := hk.symm
      rcases h : dlookup k m with _ | v
      · simp [hk]
      · simp only [if_pos hk, h, Option.map_some]
        simp [pairsSum, hp, addCounts_assoc]
    · have hp : ¬ p.1 = k := fun hx => hk hx.symm
      simp [if_neg hk, pairsSum, hp]

theorem dlookup_foldDay (k : String) (day : DailyProgress)
    (m : List (String × SubjectCounts)) :
    dlookup k (foldDay m day) =
      (dlookup k m).map (fun v => addCounts v (pairsSum k day.subjects)) :=
  dlookup_foldDay_inner k day.subjects m

theorem pairsSum_eq_getD (k : String) (ps : List (String × SubjectCounts))
    (h : (ps.map Prod.fst).Nodup) :
    pairsSum k ps = (dlookup k ps).getD zeroCounts := by
  induction ps with
  | nil => rfl
  | cons p r ih =>
    simp only [List.map_cons, List.nodup_cons] at h
    by_cases hp : p.1 = k
    · have hk : k = p.1 := hp.symm
      have hr : dlookup k r = none := by
        rw [dlookup_eq_none_iff_not_mem, hk]; exact h.1
      have hpr : pairsSum k r = zeroCounts := by
        rw [ih h.2, hr]; rfl
      simp only [pairsSum, if_pos hp, hpr, addCounts_zero_right, dlookup, if_pos hk,
        Option.getD_some]
    · have hk : ¬ k = p.1 := fun hx => hp hx.symm
      simp [pairsSum, hp, dlookup, hk, ih h.2]

theorem dlookup_statsHist (k : String) (hist : List DailyProgress)
    (m : List (String × SubjectCounts))
    (hh : ∀ day ∈ hist, (day.subjects.map Prod.fst).Nodup) :
    dlookup k (hist.foldl foldDay m) =
      (dlookup k m).map (fun v => addCounts v (histAdd hist k)) := by
  induction hist generalizing m with
  | nil =>
    rcases h : dlookup k m with _ | v <;> simp [histAdd, h, addCounts_zero_right]
  | cons d r ih =>
    simp only [List.foldl_cons]
    rw [ih _ (fun x hx => hh x (List.mem_cons_of_mem d hx)), dlookup_foldDay]
    have hd : pairsSum k d.subjects = (dlookup k d.subjects).getD zeroCounts :=
      pairsSum_eq_getD k d.subjects (hh d (List.mem_cons_self d r))
    rcases h : dlookup k m with _ | v
    · simp [h]
    · simp [histAdd, hd, addCounts_assoc]

theorem dlookup_seed_not_mem (k : String) (sp : List SubjectData)
    (acc : List (String × SubjectCounts)) (h : ∀ s ∈ sp, s.name ≠ k) :
    dlookup k (sp.foldl (fun m s => dset m s.name (snapCounts s)) acc) = dlookup k acc := by
  induction sp generalizing acc with
  | nil => rfl
  | cons s r ih =>
    simp only [List.foldl_cons]
    rw [ih _ (fun x hx => h x (List.mem_cons_of_mem s hx)), dlookup_dset]
    have : ¬ k = s.name := fun hx => h s (List.mem_cons_self s r) hx.symm
    simp [this]

theorem dlookup_seed_mem (sp : List SubjectData) (acc : List (String × SubjectCounts))
    (s : SubjectData) (hnd : (sp.map (fun x => x.name)).Nodup) (hs : s ∈ sp) :
    dlookup s.name (sp.foldl (fun m x => dset m x.name (snapCounts x)) acc) =
      some (snapCounts s) := by
  induction sp generalizing acc with
  | nil => cases hs
  | cons x r ih =>
    simp only [List.map_cons, List.nodup_cons] at hnd
    rcases List.mem_cons.mp hs with h1 | h2
    · subst h1
      simp only [List.foldl_cons]
      rw [dlookup_seed_not_mem]
      · rw [dlookup_dset]; simp
      · intro y hy hxy
        exact hnd.1 (by rw [← hxy]; exact List.mem_map_of_mem (fun z => z.name) hy)
    · simp only [List.foldl_cons]
      exact ih _ hnd.2 h2

/-- C1: for every snapshot and history, the all-time rollup maps each
catalog subject to the snapshot's counts for that subject plus the sum of
that subject's counts over all history records that contain it (a record
lacking the subject contributes zero); a history entry for a subject not
present in the snapshot creates no new mapping entry; and with an empty
history the rollup is exactly the snapshot's own per-subject totals. -/
theorem calculateAllTimeStats_spec (sp : List SubjectData) (hist : List DailyProgress)
    (hsp : (sp.map (fun s => s.name)).Nodup)
    (hh : ∀ day ∈ hist, (day.subjects.map Prod.fst).Nodup) :
    (∀ s ∈ sp, dlookup s.name (calculateAllTimeStats sp hist) =
        some (addCounts (snapCounts s) (histAdd hist s.name)))
    ∧ (∀ k, (∀ s ∈ sp, s.name ≠ k) →
        dlookup k (calculateAllTimeStats sp hist) = none)
    ∧ (∀ s ∈ sp, dlookup s.name (calculateAllTimeStats sp []) = some (snapCounts s)) := by
  refine ⟨?_, ?_, ?_⟩
  · intro s hs
    unfold calculateAllTimeStats statsFold
    rw [dlookup_statsHist _ _ _ hh]
    unfold seedStats
    rw [dlookup_seed_mem sp [] s hsp hs]
    rfl
  · intro k hk
    unfold calculateAllTimeStats statsFold
    rw [dlookup_statsHist _ _ _ hh]
    unfold seedStats
    rw [dlookup_seed_not_mem k sp [] hk]
    rfl
  · intro s hs
    unfold calculateAllTimeStats statsFold
    simp only [List.foldl_nil]
    unfold seedStats
    exact dlookup_seed_mem sp [] s hsp hs

theorem calculateAllTimeStats_spec_witness :
    (∀ s ∈ c1Snap, dlookup s.name (calculateAllTimeStats c1Snap c1Hist) =
        some (addCounts (snapCounts s) (histAdd c1Hist s.name)))
    ∧ (∀ k, (∀ s ∈ c1Snap, s.name ≠ k) →
        dlookup k (calculateAllTimeStats c1Snap c1Hist) = none)
    ∧ (∀ s ∈ c1Snap, dlookup s.name (calculateAllTimeStats c1Snap []) = some (snapCounts s)) :=
  calculateAllTimeStats_spec c1Snap c1Hist (by decide) (by decide)

theorem modifyAt_get? {α : Type} (l : List α) (n : Nat) (f : α → α) :
    (modifyAt l n f).get? n = (l.get? n).map f := by
  induction l generalizing n with
  | nil => simp [modifyAt]
  | cons a r ih =>
    cases n with
    | zero => simp [modifyAt]
    | succ m => simpa [modifyAt] using ih m

theorem getQField_setQField (s : SubjectData) (f : QField) (v : Int) :
    getQField (setQField s f v) f = v := by
  cases f <;> rfl

theorem clampStep_nonneg (v change : Int) : 0 ≤ clampStep v change :=
  le_max_left 0 (v + change)

theorem applyDeltas_nonneg (init : Int) (ds : List Int) (h : 0 ≤ init) :
    0 ≤ applyDeltas init ds := by
  induction ds generalizing init with
  | nil => exact h
  | cons d r ih => exact ih _ (clampStep_nonneg init d)

theorem applyDeltas_ge_clamped_sum (init : Int) (ds : List Int) (h : 0 ≤ init) :
    max 0 (init + ds.sum) ≤ applyDeltas init ds := by
  induction ds generalizing init with
  | nil => simpa [applyDeltas] using max_le h le_rfl
  | cons d r ih =>
    have h1 : init + d ≤ clampStep init d := le_max_right 0 (init + d)
    have h2 : max 0 (clampStep init d + r.sum) ≤ applyDeltas (clampStep init d) r :=
      ih (clampStep init d) (clampStep_nonneg init d)
    have h3 : max 0 (init + (d :: r).sum) ≤ max 0 (clampStep init d + r.sum) := by
      simp only [List.sum_cons]
      omega
    exact le_trans h3 h2

theorem applyDeltas_eq_of_nonneg_prefixes (init : Int) (ds : List Int)
    (h : ∀ n, 0 ≤ init + ((ds.take n).sum)) :
    applyDeltas init ds = init + ds.sum := by
  induction ds generalizing init with
  | nil => simp [applyDeltas]
  | cons d r ih =>
    have h1 : 0 ≤ init + d := by simpa using h 1
    have hstep : clampStep init d = init + d := by
      simp only [clampStep]; omega
    have h2 : ∀ n, 0 ≤ (init + d) + ((r.take n).sum) := by
      intro n
      have := h (n + 1)
      simpa [Int.add_assoc] using this
    simp only [applyDeltas, hstep, List.sum_cons]
    rw [ih _ h2]
    omega

theorem runDeltas_field (st : Snapshot) (date : String) (i : Nat) (f : QField)
    (ds : List Int) :
    ((runDeltas st date i f ds).subjectProgress.get? i).map (fun s => getQField s f) =
      ((st.subjectProgress.get? i).map (fun s => getQField s f)).map
        (fun v => applyDeltas v ds) := by
  induction ds generalizing st with
  | nil =>
    simp only [runDeltas]
    cases h : st.subjectProgress.get? i <;> rfl
  | cons d r ih =>
    simp only [runDeltas]
    rw [ih]
    have hget : ((updateQuestions st date i f d).1).subjectProgress.get? i =
        (st.subjectProgress.get? i).map
          (fun s => setQField s f (max 0 (getQField s f + d))) := by
      simp only [updateQuestions]
      exact modifyAt_get? _ _ _
    rw [hget]
    cases h : st.subjectProgress.get? i with
    | none => simp
    | some s0 =>
      simp [applyDeltas, clampStep, getQField_setQField]

/-- C2 (amended): each mutate call immediately issues one daily-record
upsert (n mutations produce n saveDailyProgressForDate calls, the last of
which carries the final merged state), while the separate debounced
saveUserProgress effect fires exactly once, with the final state, when
every gap between consecutive mutations is below the quiescence window. -/
theorem mutation_write_spec (w : Int) (st : Snapshot) (date : String)
    (evs : List MutEvent) (hne : evs ≠ [])
    (hgap : List.Chain' (fun a b => b.time - a.time < w) evs) :
    (runMutations st date evs).2.length = evs.length
    ∧ firedSaves w st date evs = [(runMutations st date evs).1]
    ∧ (runMutations st date evs).2.getLast? =
        some (buildProgressForDate date
          ((runMutations st date evs).1).subjectProgress
          ((runMutations st date evs).1).totalQuestions) := by
  refine ⟨?_, ?_, ?_⟩
  · clear hne hgap
    induction evs generalizing st with
    | nil => rfl
    | cons e r ih => simp [runMutations, ih]
  · induction evs generalizing st with
    | nil => exact absurd rfl hne
    | cons e r ih =>
      cases r with
      | nil => simp [firedSaves, runMutations]
      | cons e2 r2 =>
        have hg := (List.chain'_cons.mp hgap).1
        have hgr := (List.chain'_cons.mp hgap).2
        have hif : ¬ w ≤ e2.time - e.time := not_le.mpr hg
        simp only [firedSaves, if_neg hif, List.nil_append]
        rw [ih _ (by simp) hgr]
        simp [runMutations]
  · clear hgap
    induction evs generalizing st with
    | nil => exact absurd rfl hne
    | cons e r ih =>
      cases r with
      | nil => simp [runMutations, updateQuestions, buildProgressForDate]
      | cons e2 r2 =>
        have := ih ((updateQuestions st date e.subjectIndex e.field e.change).1) (by simp)
        simp only [runMutations] at this ⊢
        rw [List.getLast?_cons_cons]
        exact this

/-- C3 (amended): iterating updateQuestions on one field applies the
stepwise clamp max(0, old + d); the result is never negative, and is at
least max(0, initial + sum(d)); it equals max(0, initial + sum(d))
exactly when no intermediate clamp fires, i.e. when the counter stays
nonnegative along every prefix of the delta sequence. -/
theorem updateQuestions_clamp_spec (st : Snapshot) (date : String) (i : Nat)
    (f : QField) (ds : List Int) (s0 : SubjectData)
    (hs : st.subjectProgress.get? i = some s0)
    (hd : ∀ d ∈ ds, d = -1 ∨ d = 1)
    (h0 : 0 ≤ getQField s0 f) :
    ((runDeltas st date i f ds).subjectProgress.get? i).map (fun s => getQField s f) =
      some (applyDeltas (getQField s0 f) ds)
    ∧ 0 ≤ applyDeltas (getQField s0 f) ds
    ∧ max 0 (getQField s0 f + ds.sum) ≤ applyDeltas (getQField s0 f) ds
    ∧ ((∀ n, 0 ≤ getQField s0 f + ((ds.take n).sum)) →
        applyDeltas (getQField s0 f) ds = max 0 (getQField s0 f + ds.sum)) := by
  refine ⟨?_, applyDeltas_nonneg _ _ h0, applyDeltas_ge_clamped_sum _ _ h0, ?_⟩
  · rw [runDeltas_field, hs]
    rfl
  · intro hpre
    rw [applyDeltas_eq_of_nonneg_prefixes _ _ hpre]
    have := hpre ds.length
    simp only [List.take_length] at this
    omega

theorem updateQuestions_clamp_spec_witness :
    ((((runDeltas c3St "2024-01-01" 0 QField.correct [1, 1, -1]).subjectProgress.get? 0).map
        (fun s => getQField s QField.correct)) =
      some (applyDeltas (getQField c3Subj QField.correct) [1, 1, -1]))
    ∧ 0 ≤ applyDeltas (getQField c3Subj QField.correct) [1, 1, -1]
    ∧ max 0 (getQField c3Subj QField.correct + List.sum [1, 1, -1]) ≤
        applyDeltas (getQField c3Subj QField.correct) [1, 1, -1]
    ∧ ((∀ n, 0 ≤ getQField c3Subj QField.correct + (List.take n [1, 1, -1]).sum) →
        applyDeltas (getQField c3Subj QField.correct) [1, 1, -1] =
          max 0 (getQField c3Subj QField.correct + List.sum [1, 1, -1])) :=
  updateQuestions_clamp_spec c3St "2024-01-01" 0 QField.correct [1, 1, -1] c3Subj
    (by decide) (by decide) (by decide)

/-- C3 (counterexample): starting from 0, the delta sequence decrement
then increment (both in {-1, +1}) leaves the counter at 1, while the
claimed formula max(0, initial + sum(d)) gives 0. -/
theorem updateQuestions_clamp_counterexample :
    (((runDeltas c3St "2024-01-01" 0 QField.correct [-1, 1]).subjectProgress.get? 0).map
        (fun s => s.correct) = some 1)
    ∧ ((-1 : Int) = -1 ∨ (-1 : Int) = 1) ∧ ((1 : Int) = -1 ∨ (1 : Int) = 1)
    ∧ max 0 (0 + List.sum [(-1 : Int), 1]) = 0
    ∧ (1 : Int) ≠ 0 := by decide

theorem mutation_write_spec_witness :
    (runMutations c2St "2024-01-01" c2Evs).2.length = c2Evs.length
    ∧ firedSaves 1000 c2St "2024-01-01" c2Evs = [(runMutations c2St "2024-01-01" c2Evs).1]
    ∧ (runMutations c2St "2024-01-01" c2Evs).2.getLast? =
        some (buildProgressForDate "2024-01-01"
          ((runMutations c2St "2024-01-01" c2Evs).1).subjectProgress
          ((runMutations c2St "2024-01-01" c2Evs).1).totalQuestions) :=
  mutation_write_spec 1000 c2St "2024-01-01" c2Evs (by decide)
    (by simp [c2Evs, List.chain'_cons, List.chain'_singleton])

/-- C2 (counterexample): two sequential mutate calls 200 ms apart issue
two saveDailyProgressForDate upsert calls, not one. -/
theorem mutation_write_counterexample :
    (c2Evs.map (fun e => e.time) = [0, 200])
    ∧ (runMutations c2St "2024-01-01" c2Evs).2.length = 2
    ∧ (2 : Nat) ≠ 1 := by decide

/-- C4 (amended): loading a date merges catalog targets with the record
counters per subject name by exact match (zeros when the record lacks the
name or no record exists), and the snapshot's total target is the catalog
document's stored totalTarget field — never the daily record's stored
totalTarget; it equals the catalog's live target sum whenever the stored
field satisfies the writer-maintained invariant. -/
theorem loadUserDataForDate_spec (up : UserProgress) (dp : Option DailyProgress) :
    (∀ i s, up.subjects.get? i = some s →
      (loadUserDataForDate up dp).subjectProgress.get? i =
        some (match dp with
          | none => zeroOut s
          | some d =>
            match dlookup s.name d.subjects with
            | some c => { s with correct := c.correct, wrong := c.wrong, empty := c.empty }
            | none => zeroOut s))
    ∧ (loadUserDataForDate up dp).totalTarget = up.totalTarget
    ∧ (up.totalTarget = sumTargets up.subjects →
        (loadUserDataForDate up dp).totalTarget = sumTargets up.subjects) := by
  refine ⟨?_, rfl, fun h => h⟩
  intro i s hs
  cases dp with
  | none =>
    simp only [loadUserDataForDate, List.get?_map, hs, Option.map_some']
  | some d =>
    simp only [loadUserDataForDate, List.get?_map, hs, Option.map_some', mergeSubject]

theorem loadUserDataForDate_spec_witness :
    (∀ i s, c4Up.subjects.get? i = some s →
      (loadUserDataForDate c4Up (some c4Dp)).subjectProgress.get? i =
        some (match (some c4Dp : Option DailyProgress) with
          | none => zeroOut s
          | some d =>
            match dlookup s.name d.subjects with
            | some c => { s with correct := c.correct, wrong := c.wrong, empty := c.empty }
            | none => zeroOut s))
    ∧ (loadUserDataForDate c4Up (some c4Dp)).totalTarget = c4Up.totalTarget
    ∧ (c4Up.totalTarget = sumTargets c4Up.subjects →
        (loadUserDataForDate c4Up (some c4Dp)).totalTarget = sumTargets c4Up.subjects) :=
  loadUserDataForDate_spec c4Up (some c4Dp)

/-- C4 (counterexample): with a catalog whose stored totalTarget is 99
while its subject targets sum to 25, the loaded snapshot's total target
is 99, not the catalog's live target sum. -/
theorem loadUserDataForDate_counterexample :
    (loadUserDataForDate c4Up none).totalTarget = 99
    ∧ sumTargets c4Up.subjects = 25
    ∧ (99 : Int) ≠ 25 := by decide

theorem mergeDoc_dlookup {α : Type} (old record : List (String × α)) (f : String)
    (hr : (record.map Prod.fst).Nodup) :
    dlookup f (mergeDoc old record) =
      match dlookup f record with
      | some v => some v
      | none => dlookup f old := by
  induction record generalizing old with
  | nil => rfl
  | cons p r ih =>
    simp only [List.map_cons, List.nodup_cons] at hr
    simp only [mergeDoc, List.foldl_cons]
    have : r.foldl (fun d p => dset d p.1 p.2) (dset old p.1 p.2) =
        mergeDoc (dset old p.1 p.2) r := rfl
    rw [this, ih _ hr.2]
    by_cases hf : f = p.1
    · have hfr : dlookup f r = none := by
        rw [dlookup_eq_none_iff_not_mem, hf]
        exact hr.1
      rw [hf] at hfr
      simp [dlookup, hf, hfr, dlookup_dset]
    · simp only [dlookup, if_neg hf]
      cases h : dlookup f r with
      | some v => simp
      | none => simp [dlookup_dset, hf]

theorem map_fst_replace {α : Type} (store : Store α) (key : String)
    (doc : List (String × α)) :
    (store.map (fun p => if p.1 = key then (key, doc) else p)).map Prod.fst =
      store.map Prod.fst := by
  induction store with
  | nil => rfl
  | cons p r ih =>
    by_cases hp : p.1 = key <;> simp [hp, ih]

theorem dlookup_isSome_mem {α : Type} (k : String) (m : List (String × α))
    (h : dlookup k m ≠ none) : k ∈ m.map Prod.fst := by
  by_contra hmem
  exact h ((dlookup_eq_none_iff_not_mem k m).mpr hmem)

theorem setDocMerge_spec {α : Type} (store : Store α) (key : String)
    (record : List (String × α))
    (hs : (store.map Prod.fst).Nodup) (hr : (record.map Prod.fst).Nodup) :
    ((setDocMerge store key record).map Prod.fst).Nodup
    ∧ ((setDocMerge store key record).map Prod.fst).count key = 1
    ∧ (∀ f v, dlookup f record = some v →
        (dlookup key (setDocMerge store key record)).bind (dlookup f) = some v)
    ∧ (∀ f, dlookup f record = none →
        (dlookup key (setDocMerge store key record)).bind (dlookup f) =
          (dlookup key store).bind (dlookup f)) := by
  cases hold : dlookup key store with
  | some old =>
    have hkm : key ∈ store.map Prod.fst :=
      dlookup_isSome_mem key store (by rw [hold]; exact Option.some_ne_none old)
    have hkeys : ((setDocMerge store key record).map Prod.fst) = store.map Prod.fst := by
      simp only [setDocMerge, hold]
      exact map_fst_replace store key (mergeDoc old record)
    have hget : dlookup key (setDocMerge store key record) = some (mergeDoc old record) := by
      simp only [setDocMerge, hold]
      rw [dlookup_map_replace]
      simp [hold]
    refine ⟨by rw [hkeys]; exact hs, ?_, ?_, ?_⟩
    · rw [hkeys]
      exact List.count_eq_one_of_mem hs hkm
    · intro f v hf
      rw [hget]
      simp [mergeDoc_dlookup old record f hr, hf]
    · intro f hf
      rw [hget]
      simp [mergeDoc_dlookup old record f hr, hf]
  | none =>
    have hkm : key ∉ store.map Prod.fst := (dlookup_eq_none_iff_not_mem key store).mp hold
    have hkeys : ((setDocMerge store key record).map Prod.fst) =
        store.map Prod.fst ++ [key] := by
      simp [setDocMerge, hold]
    have hget : dlookup key (setDocMerge store key record) = some record := by
      simp only [setDocMerge, hold]
      rw [dlookup_append, hold]
      simp [dlookup]
    refine ⟨?_, ?_, ?_, ?_⟩
    · rw [hkeys]
      simp [List.nodup_append, hs, hkm]
    · rw [hkeys]
      rw [List.count_append]
      rw [List.count_eq_zero_of_not_mem hkm]
      simp
    · intro f v hf
      rw [hget]
      simpa using hf
    · intro f hf
      rw [hget]
      simp [hf]

/-- C5: persisting daily progress writes to the deterministic key
userId_date with merge semantics: the store keeps exactly one record for
that key, every field the record specifies reads back as written, a write
never deletes fields it does not specify, and a second write in the same
window still leaves exactly one record, reflecting the latest snapshot's
fields. -/
theorem saveDailyProgressForDate_spec {α : Type} (store : Store α) (userId date : String)
    (record : List (String × α))
    (hs : (store.map Prod.fst).Nodup) (hr : (record.map Prod.fst).Nodup) :
    ((saveDailyProgressForDate store userId date record).map Prod.fst).Nodup
    ∧ ((saveDailyProgressForDate store userId date record).map Prod.fst).count
        (docKey userId date) = 1
    ∧ (∀ f v, dlookup f record = some v →
        (dlookup (docKey userId date)
          (saveDailyProgressForDate store userId date record)).bind (dlookup f) = some v)
    ∧ (∀ f, dlookup f record = none →
        (dlookup (docKey userId date)
          (saveDailyProgressForDate store userId date record)).bind (dlookup f) =
          (dlookup (docKey userId date) store).bind (dlookup f))
    ∧ (∀ record2, (record2.map Prod.fst).Nodup →
        ((saveDailyProgressForDate (saveDailyProgressForDate store userId date record)
            userId date record2).map Prod.fst).count (docKey userId date) = 1
        ∧ (∀ f v, dlookup f record2 = some v →
            (dlookup (docKey userId date)
              (saveDailyProgressForDate (saveDailyProgressForDate store userId date record)
                userId date record2)).bind (dlookup f) = some v)) := by
  have h1 := setDocMerge_spec store (docKey userId date) record hs hr
  refine ⟨h1.1, h1.2.1, h1.2.2.1, h1.2.2.2, ?_⟩
  intro record2 hr2
  have h2 := setDocMerge_spec (setDocMerge store (docKey userId date) record)
    (docKey userId date) record2 h1.1 hr2
  exact ⟨h2.2.1, h2.2.2.1⟩

theorem saveDailyProgressForDate_spec_witness :
    ((saveDailyProgressForDate c5Store "u" "2024-01-02" c5Rec).map Prod.fst).Nodup
    ∧ ((saveDailyProgressForDate c5Store "u" "2024-01-02" c5Rec).map Prod.fst).count
        (docKey "u" "2024-01-02") = 1
    ∧ (∀ f v, dlookup f c5Rec = some v →
        (dlookup (docKey "u" "2024-01-02")
          (saveDailyProgressForDate c5Store "u" "2024-01-02" c5Rec)).bind (dlookup f) = some v)
    ∧ (∀ f, dlookup f c5Rec = none →
        (dlookup (docKey "u" "2024-01-02")
          (saveDailyProgressForDate c5Store "u" "2024-01-02" c5Rec)).bind (dlookup f) =
          (dlookup (docKey "u" "2024-01-02") c5Store).bind (dlookup f))
    ∧ (∀ record2, (record2.map Prod.fst).Nodup →
        ((saveDailyProgressForDate (saveDailyProgressForDate c5Store "u" "2024-01-02" c5Rec)
            "u" "2024-01-02" record2).map Prod.fst).count (docKey "u" "2024-01-02") = 1
        ∧ (∀ f v, dlookup f record2 = some v →
            (dlookup (docKey "u" "2024-01-02")
              (saveDailyProgressForDate
                (saveDailyProgressForDate c5Store "u" "2024-01-02" c5Rec)
                "u" "2024-01-02" record2)).bind (dlookup f) = some v)) :=
  saveDailyProgressForDate_spec c5Store "u" "2024-01-02" c5Rec (by decide) (by decide)

/-- C6: initializeUserSettings (and its legacy sibling
initializeUserProgress) creates the six-subject default set with targets
10, 15, 8, 12, 10, 5 only when no document exists; a second invocation is
a no-op, so after it exactly one catalog exists and its targets are
unchanged. -/
theorem initializeCatalog_idempotent :
    (∀ st : Option UserSettings,
        initializeUserSettings (initializeUserSettings st) = initializeUserSettings st)
    ∧ ((initializeUserSettings none).map (fun s => s.subjects.map (fun x => x.target)) =
        some [10, 15, 8, 12, 10, 5])
    ∧ (∀ s : UserSettings, initializeUserSettings (some s) = some s)
    ∧ (∀ st : Option UserSettings, (initializeUserSettings st).isSome = true)
    ∧ (∀ p : Option UserProgress,
        initializeUserProgress (initializeUserProgress p) = initializeUserProgress p)
    ∧ ((initializeUserProgress none).map (fun p => p.subjects.map (fun x => x.target)) =
        some [10, 15, 8, 12, 10, 5])
    ∧ (∀ p : UserProgress, initializeUserProgress (some p) = some p) := by
  refine ⟨?_, rfl, fun s => rfl, ?_, ?_, rfl, fun p => rfl⟩
  · intro st; cases st <;> rfl
  · intro st; cases st <;> rfl
  · intro p; cases p <;> rfl

/-- C7 (amended): a history record passes the weekly filter exactly when
its midnight instant is at least now minus 7 times 86400000 ms; writing
now as today's midnight tm plus the elapsed time r of the current day, a
record whose date is k calendar days before today contributes iff k ≤ 6,
or k = 7 and the current time is exactly midnight; in the weekly rollup
each catalog subject receives the snapshot's counts plus the
contributions of exactly the records passing that filter. -/
theorem calculateWeeklyStats_window_spec (tm r k : Int) (h0 : 0 ≤ r) (h1 : r < msPerDay) :
    (weeklyContributes (tm + r) (tm - k * msPerDay) = true ↔ (k ≤ 6 ∨ (k = 7 ∧ r = 0)))
    ∧ (∀ (parseDate : String → Int) (sp : List SubjectData) (hist : List DailyProgress)
        (s : SubjectData), (sp.map (fun x => x.name)).Nodup → s ∈ sp →
        (∀ day ∈ hist, (day.subjects.map Prod.fst).Nodup) →
        dlookup s.name (calculateWeeklyStats parseDate (tm + r) sp hist) =
          some (addCounts (snapCounts s)
            (histAdd (hist.filter (fun day => weeklyContributes (tm + r) (parseDate day.date)))
              s.name))) := by
  constructor
  · simp only [msPerDay] at h1
    simp only [weeklyContributes, msPerDay, decide_eq_true_eq]
    constructor
    · intro h
      omega
    · intro h
      omega
  · intro parseDate sp hist s hsp hs hh
    unfold calculateWeeklyStats statsFold
    rw [dlookup_statsHist _ _ _ (fun day hday => hh day (List.mem_of_mem_filter hday))]
    unfold seedStats
    rw [dlookup_seed_mem sp [] s hsp hs]
    rfl

theorem calculateWeeklyStats_window_spec_witness :
    (weeklyContributes ((604800000 : Int) + 3600000)
        ((604800000 : Int) - 3 * msPerDay) = true ↔
      ((3 : Int) ≤ 6 ∨ ((3 : Int) = 7 ∧ (3600000 : Int) = 0)))
    ∧ (∀ (parseDate : String → Int) (sp : List SubjectData) (hist : List DailyProgress)
        (s : SubjectData), (sp.map (fun x => x.name)).Nodup → s ∈ sp →
        (∀ day ∈ hist, (day.subjects.map Prod.fst).Nodup) →
        dlookup s.name (calculateWeeklyStats parseDate ((604800000 : Int) + 3600000) sp hist) =
          some (addCounts (snapCounts s)
            (histAdd (hist.filter (fun day =>
                weeklyContributes ((604800000 : Int) + 3600000) (parseDate day.date)))
              s.name))) :=
  calculateWeeklyStats_window_spec 604800000 3600000 3 (by decide) (by decide)

/-- C7 (counterexample): at one hour past midnight, the record dated
exactly 7 calendar days ago satisfies the claim's inclusive day-level
window (its date is today minus 7 days), yet the code's timestamp filter
drops it and the weekly rollup keeps the snapshot's zeros instead of
adding its five questions. -/
theorem calculateWeeklyStats_boundary_counterexample :
    weeklyContributes (7 * msPerDay + 3600000) 0 = false
    ∧ ((0 : Int) ≥ ((7 : Int) - 7) * msPerDay)
    ∧ dlookup "Matematik"
        (calculateWeeklyStats (fun _ => 0) (7 * msPerDay + 3600000) c7Sp [c7Day]) =
        some { correct := 0, wrong := 0, empty := 0, total := 0 }
    ∧ some ({ correct := 0, wrong := 0, empty := 0, total := 0 } : SubjectCounts) ≠
        some { correct := 5, wrong := 0, empty := 0, total := 5 } := by decide

/-- C8 (amended): for every subject with the invariant-respecting target
of at least 1, the derived completion percentage is
min(100, 100 × (correct + wrong + empty) / target); the code has no
guard for target = 0. -/
theorem getProgressPercentage_spec (s : SubjectData) (h : 1 ≤ s.target) :
    getProgressPercentage s =
      JSNum.num (min 100
        (100 * ((s.correct : ℚ) + (s.wrong : ℚ) + (s.empty : ℚ)) / (s.target : ℚ))) := by
  have ht0 : (0 : Int) < s.target := by omega
  have htq : (0 : ℚ) < (s.target : ℚ) := by exact_mod_cast ht0
  have hne : (s.target : ℚ) ≠ 0 := ne_of_gt htq
  simp only [getProgressPercentage, jsDiv, if_neg hne, jsMul, jsMin]
  have harith : ((s.correct : ℚ) + (s.wrong : ℚ) + (s.empty : ℚ)) / (s.target : ℚ) * 100 =
      100 * ((s.correct : ℚ) + (s.wrong : ℚ) + (s.empty : ℚ)) / (s.target : ℚ) := by
    ring
  rw [harith, min_comm]

theorem getProgressPercentage_spec_witness :
    getProgressPercentage c8Subj =
      JSNum.num (min 100
        (100 * ((c8Subj.correct : ℚ) + (c8Subj.wrong : ℚ) + (c8Subj.empty : ℚ)) /
          (c8Subj.target : ℚ))) :=
  getProgressPercentage_spec c8Subj (by decide)

/-- C8 (counterexample): at target 0 with one question answered the code
returns 100 percent (Infinity clipped by Math.min), not the claimed 0. -/
theorem getProgressPercentage_target_zero_counterexample :
    getProgressPercentage
        { name := "X", icon := "", correct := 1, wrong := 0, empty := 0,
          target := 0, color := "" } = JSNum.num 100
    ∧ JSNum.num (100 : ℚ) ≠ JSNum.num 0 := by
  constructor
  · simp only [getProgressPercentage, jsDiv, jsMul, jsMin]
    norm_num
  · intro h
    have : (100 : ℚ) = 0 := JSNum.num.inj h
    norm_num at this

/-- C9 (amended): saveDailyProgressForDate rethrows a failure of its
single underlying write to the caller; getDailyProgressForDate maps a
failure to null and getUserDailyHistory maps it to the empty list, the
same results a successful call can produce, so those two failures are
swallowed rather than surfaced; successes pass through unchanged. -/
theorem adapter_error_propagation (e : String) :
    saveDailyProgressOutcome (Except.error e) = Except.error e
    ∧ getDailyProgressForDate (Except.error e) = none
    ∧ getUserDailyHistory (Except.error e) = []
    ∧ (∀ u, saveDailyProgressOutcome (Except.ok u) = Except.ok u)
    ∧ (∀ v, getDailyProgressForDate (Except.ok v) = v)
    ∧ (∀ l, getUserDailyHistory (Except.ok l) = l) :=
  ⟨rfl, rfl, rfl, fun _ => rfl, fun _ => rfl, fun _ => rfl⟩

/-- C9 (counterexample): the read adapters do not surface failures — a
store error produces the very same caller-visible result as a successful
call that found no data, refuting that every failing operation surfaces a
retryable I/O error to its caller. -/
theorem adapter_swallows_failures_counterexample :
    (¬ ∀ (e : String) (x : Option DailyProgress),
        getDailyProgressForDate (Except.error e) ≠ getDailyProgressForDate (Except.ok x))
    ∧ (¬ ∀ (e : String) (l : List DailyProgress),
        getUserDailyHistory (Except.error e) ≠ getUserDailyHistory (Except.ok l))
    ∧ getDailyProgressForDate (Except.error "unavailable") =
        getDailyProgressForDate (Except.ok none)
    ∧ getUserDailyHistory (Except.error "unavailable") = getUserDailyHistory (Except.ok []) :=
  ⟨fun h => h "unavailable" none rfl, fun h => h "unavailable" [] rfl, rfl, rfl⟩

theorem sumCWE_shift (l : List SubjectData) (a : Int) :
    l.foldl (fun sum s => sum + s.correct + s.wrong + s.empty) a =
      a + (l.map (fun s => s.correct + s.wrong + s.empty)).sum := by
  induction l generalizing a with
  | nil => simp
  | cons s r ih =>
    simp only [List.foldl_cons, List.map_cons, List.sum_cons]
    rw [ih]
    ring

theorem sumCWE_eq_map_sum (l : List SubjectData) :
    sumCWE l = (l.map (fun s => s.correct + s.wrong + s.empty)).sum := by
  simpa using sumCWE_shift l 0

/-- C10: after a load for a date and after every mutation, the snapshot's
totalQuestions equals the sum over all snapshot subjects of
correct + wrong + empty — both operations re-establish the equality by
recomputing the total from the new subject list. -/
theorem totalQuestions_invariant :
    (∀ (up : UserProgress) (dp : Option DailyProgress),
      (loadUserDataForDate up dp).totalQuestions =
        ((loadUserDataForDate up dp).subjectProgress.map
          (fun s => s.correct + s.wrong + s.empty)).sum)
    ∧ (∀ (st : Snapshot) (date : String) (i : Nat) (f : QField) (d : Int),
      ((updateQuestions st date i f d).1).totalQuestions =
        (((updateQuestions st date i f d).1).subjectProgress.map
          (fun s => s.correct + s.wrong + s.empty)).sum) := by
  constructor
  · intro up dp
    simp [loadUserDataForDate, sumCWE_eq_map_sum]
  · intro st date i f d
    simp [updateQuestions, sumCWE_eq_map_sum]
